import Mathlib

/-!
Shallow embedding of the tac08 hardware-abstraction layer (`src/src/hal_core.cpp`)
and verification of its natural-language specification.

Modelling conventions:
* 8-bit input masks (`keyState`, `joyState`, `hatState`, `simState`) are `Nat`
  values; the C bit operations `|=` and `&= ~` on `uint8_t` are `Nat.lor` with
  `1 <<< bit` and `Nat.land` with `255 ^^^ (1 <<< bit)` (all bits used are < 8).
* SDL window sizes and the virtual screen size are `Nat` (they are nonnegative
  C `int`s); `double` arithmetic is modelled exactly over `ℚ`; a C cast from
  `double` to `int` is truncation toward zero (`itrunc`).
* The global mutable state of `hal_core.cpp` is the record `HALState`,
  threaded explicitly; external SDL queries (window size, hat position,
  normalized finger coordinates) are passed as parameters.
* Code whose execution is undefined behaviour (an out-of-bounds array access)
  is modelled as `Option.none`.
-/

/-- Truncation of a rational toward zero, the semantics of a C cast from
`double` to `int`. -/
def itrunc (q : ℚ) : ℤ :=
  if 0 ≤ q then ⌊q⌋ else -⌊-q⌋

/-- Function `set_state_bit` from hal_core.cpp (lines 245–253): if `condition` holds,
set (`value = true`) or clear (`value = false`) bit `bit` of the 8-bit
`state`; otherwise leave `state` unchanged.  The C clear `state &= ~(1 << bit)`
on a `uint8_t` is `state &&& (255 ^^^ (1 <<< bit))` for `bit < 8`. -/
def set_state_bit (state : Nat) (bit : Nat) (condition : Bool) (value : Bool) : Nat :=
  if condition then
    if value then state ||| (1 <<< bit)
    else state &&& (255 ^^^ (1 <<< bit))
  else state

/-- Modelled from the spec: the touch state flags of `TouchInfo`
(declared in `hal_core.h`, which is absent from `src/`): the values
`{None, Pressed, JustPressed, JustReleased}` are "independently-OR-able bits",
so they are modelled as three independent booleans; `None` is all-false. -/
structure TouchFlags where
  pressed : Bool
  justPressed : Bool
  justReleased : Bool
deriving DecidableEq, Repr

/-- The all-clear touch state, `TouchInfo::None`. -/
def TouchFlags.none : TouchFlags := ⟨false, false, false⟩

/-- Modelled from the spec: a touch-point record (`TouchInfo` of `hal_core.h`,
absent from `src/`): last known virtual-space position and the state flags. -/
structure TouchInfo where
  x : ℤ
  y : ℤ
  state : TouchFlags
deriving DecidableEq, Repr

/-- The default-constructed `TouchInfo{}`. -/
def TouchInfo.empty : TouchInfo := ⟨0, 0, TouchFlags.none⟩

/-- The SDL key symbols that hal_core.cpp inspects; every other symbol is
`other`. -/
inductive Key where
  | left | right | up | down | z | x | p | ret | escape
  | f11 | q | t | r | other
deriving DecidableEq, Repr

/-- The SDL events that hal_core.cpp handles.  `key down sym ctrl` covers
`SDL_KEYDOWN`/`SDL_KEYUP` with symbol `sym` and the CTRL modifier state;
`joyHat` carries the result of the `SDL_JoystickGetHat` query; `finger`
carries the normalized `[0,1]` touch coordinates; `other` is any event kind
the code ignores. -/
inductive Event where
  | key (down : Bool) (sym : Key) (ctrl : Bool)
  | mouseWheel (dy : ℤ)
  | joyAxis (axis : Nat) (value : ℤ)
  | joyHat (l r u d : Bool)
  | joyButton (button : Nat) (pressed : Bool)
  | finger (ftype : Nat) (fingerId : ℤ) (fx fy : ℚ)
  | quit
  | other
deriving DecidableEq, Repr

/-- The `SDL_FINGERDOWN`, `SDL_FINGERMOTION`, `SDL_FINGERUP` discriminants for
`Event.finger` (0 = down, 1 = motion, 2 = up). -/
def fingerDown : Nat := 0
def fingerMotion : Nat := 1
def fingerUp : Nat := 2

/-- The mutable file-scope state of hal_core.cpp relevant to the core:
the four 8-bit input masks, the accumulated mouse wheel, the touch table
(`std::array<TouchInfo, 8> touchState`), the one-shot and toggle flags and
the virtual back-buffer size (`screenWidth`, `screenHeight`). -/
structure HALState where
  keyState : Nat
  joyState : Nat
  hatState : Nat
  simState : Nat
  mouseWheel : ℤ
  touchState : Fin 8 → TouchInfo
  reload_requested : Bool
  debug_trace_state : Bool
  screenWidth : Nat
  screenHeight : Nat

/-- A letterbox rectangle (`SDL_Rect`); all fields are nonnegative here. -/
structure SDLRect where
  x : Nat
  y : Nat
  w : Nat
  h : Nat
deriving DecidableEq, Repr

/-- Function `getDisplayArea` (hal_core.cpp lines 209–229): given the physical window
size `(winx, winy)` and the virtual size `(sw, sh)`, compute the letterboxed
destination rectangle and the uniform scale.  `xscale`/`yscale` are the
`double` ratios, the rectangle starts as the whole window, and the branch on
`xscale * screenHeight > winy` shrinks and centers one dimension. -/
def getDisplayArea (winx winy sw sh : Nat) : SDLRect × ℚ :=
  let xscale : ℚ := (winx : ℚ) / (sw : ℚ)
  let yscale : ℚ := (winy : ℚ) / (sh : ℚ)
  if xscale * (sh : ℚ) > (winy : ℚ) then
    let w : Nat := (⌊yscale * (sw : ℚ)⌋).toNat
    (⟨winx / 2 - w / 2, 0, w, winy⟩, yscale)
  else
    let h : Nat := (⌊xscale * (sh : ℚ)⌋).toNat
    (⟨0, winy / 2 - h / 2, winx, h⟩, xscale)

/-- Function `scaleMouse` (hal_core.cpp lines 419–426): translate a physical-window
point into virtual-display coordinates by subtracting the letterbox origin
and dividing by the scale, truncating toward zero. -/
def scaleMouse (winx winy sw sh : Nat) (x y : ℤ) : ℤ × ℤ :=
  let rs := getDisplayArea winx winy sw sh
  let x := x - (rs.1.x : ℤ)
  let y := y - (rs.1.y : ℤ)
  (itrunc ((x : ℚ) / rs.2), itrunc ((y : ℚ) / rs.2))

/-- Function `processTouchEvent` (hal_core.cpp lines 293–313): if `fingerId <
touchState.size()` the event is applied to slot `fingerId`: the normalized
coordinates are converted to window pixels and then to virtual pixels via
`scaleMouse`, and the state flags are OR-ed according to the event type
(down sets JustPressed and Pressed, motion sets Pressed, up sets
JustReleased).  A negative `fingerId` passes the C guard and indexes the
array out of bounds: that is modelled as `none`.  Events with `fingerId ≥ 8`
leave the state unchanged. -/
def processTouchEvent (winx winy : Nat) (s : HALState) (ftype : Nat)
    (fingerId : ℤ) (fx fy : ℚ) : Option HALState :=
  if h8 : fingerId < 8 then
    if h : 0 ≤ fingerId then
      let i : Fin 8 := ⟨fingerId.toNat, by omega⟩
      let t := s.touchState i
      let px := itrunc (fx * (winx : ℚ))
      let py := itrunc (fy * (winy : ℚ))
      let pv := scaleMouse winx winy s.screenWidth s.screenHeight px py
      let fl := t.state
      let fl := if ftype = fingerDown then
          { fl with justPressed := true, pressed := true } else fl
      let fl := if ftype = fingerMotion then { fl with pressed := true } else fl
      let fl := if ftype = fingerUp then { fl with justReleased := true } else fl
      some { s with touchState :=
        Function.update s.touchState i ⟨pv.1, pv.2, fl⟩ }
    else none
  else some s

/-- The `flushTouchEvents` slot body (hal_core.cpp lines 280–288): clear a set
JustPressed bit; a slot with JustReleased set has its whole state reset to
None (position is not touched by the C code). -/
def flushTouchInfo (t : TouchInfo) : TouchInfo :=
  let t := if t.state.justPressed then
      { t with state := { t.state with justPressed := false } } else t
  if t.state.justReleased then { t with state := TouchFlags.none } else t

/-- Function `flushTouchEvents` (hal_core.cpp lines 279–289), applied to every slot. -/
def flushTouchEvents (ts : Fin 8 → TouchInfo) : Fin 8 → TouchInfo :=
  fun i => flushTouchInfo (ts i)

/-- The bounds test of `INP_GetTouchInfo` exactly as written in the source
(hal_core.cpp line 272): `idx < 0 && idx >= (int)touchState.size()`. -/
def touchIdxGuard (idx : ℤ) : Bool :=
  decide (idx < 0) && decide (idx ≥ 8)

/-- Function `INP_GetTouchInfo` (hal_core.cpp lines 271–277): if the (broken) guard
holds, return a default `TouchInfo`; otherwise access `touchState[idx]`,
which is an out-of-bounds access (modelled as `none`) whenever
`idx < 0 ∨ idx ≥ 8`. -/
def INP_GetTouchInfo (ts : Fin 8 → TouchInfo) (idx : ℤ) : Option TouchInfo :=
  if touchIdxGuard idx then some TouchInfo.empty
  else if h : 0 ≤ idx ∧ idx < 8 then some (ts ⟨idx.toNat, by omega⟩)
  else none

/-- Modelled from the spec: the intended bounds validation of
`INP_GetTouchInfo`, with `||` in place of the source's `&&`
("treat bounds validation as `idx < 0 || idx >= size`"). -/
def INP_GetTouchInfo_intended (ts : Fin 8 → TouchInfo) (idx : ℤ) : TouchInfo :=
  if h : idx < 0 ∨ idx ≥ 8 then TouchInfo.empty
  else ts ⟨idx.toNat, by omega⟩

/-- The keyboard block of `INP_ProcessInputEvents` (hal_core.cpp lines
335–344): the chain of `set_state_bit` calls mapping physical key symbols to
keyboard-mask bits (`down = true` for `SDL_KEYDOWN`). -/
def applyKey (ks : Nat) (sym : Key) (down : Bool) : Nat :=
  let ks := set_state_bit ks 0 (sym == Key.left) down
  let ks := set_state_bit ks 1 (sym == Key.right) down
  let ks := set_state_bit ks 2 (sym == Key.up) down
  let ks := set_state_bit ks 3 (sym == Key.down) down
  let ks := set_state_bit ks 4 (sym == Key.z) down
  let ks := set_state_bit ks 5 (sym == Key.x) down
  let ks := set_state_bit ks 6 (sym == Key.p) down
  let ks := set_state_bit ks 6 (sym == Key.ret) down
  let ks := set_state_bit ks 7 (sym == Key.escape) down
  ks

/-- The joystick-axis block of `INP_ProcessInputEvents` (hal_core.cpp lines
347–352): two direction bits per axis, thresholded at the ±1500 deadzone. -/
def applyJoyAxis (js : Nat) (axis : Nat) (value : ℤ) : Nat :=
  let js := set_state_bit js 0 (axis == 0) (decide (value < -1500))
  let js := set_state_bit js 1 (axis == 0) (decide (value > 1500))
  let js := set_state_bit js 2 (axis == 1) (decide (value < -1500))
  let js := set_state_bit js 3 (axis == 1) (decide (value > 1500))
  js

/-- The joystick-hat block of `INP_ProcessInputEvents` (hal_core.cpp lines
353–359): four direction bits recomputed from the queried hat position. -/
def applyJoyHat (hs : Nat) (l r u d : Bool) : Nat :=
  let hs := set_state_bit hs 0 true l
  let hs := set_state_bit hs 1 true r
  let hs := set_state_bit hs 2 true u
  let hs := set_state_bit hs 3 true d
  hs

/-- The joystick-button block of `INP_ProcessInputEvents` (hal_core.cpp lines
361–365): physical buttons 1, 0, 7 drive bits 4, 5, 6. -/
def applyJoyButton (js : Nat) (button : Nat) (pressed : Bool) : Nat :=
  let js := set_state_bit js 4 (button == 1) pressed
  let js := set_state_bit js 5 (button == 0) pressed
  let js := set_state_bit js 6 (button == 7) pressed
  js

/-- Function `INP_ProcessInputEvents` (hal_core.cpp lines 319–371): hotkeys
(F11, Ctrl+Q, Ctrl+T, Ctrl+R) are intercepted on key-down before the generic
keyboard handling; the returned boolean is whether processing should
continue (false only for Ctrl+Q).  `winx`/`winy` is the window size queried
by the touch handler.  `none` models the out-of-bounds touch access for a
negative finger id. -/
def INP_ProcessInputEvents (winx winy : Nat) (s : HALState) (ev : Event) :
    Option (Bool × HALState) :=
  match ev with
  | .key down sym ctrl =>
    if down && (sym == Key.f11) then some (true, s)
    else if down && (sym == Key.q) && ctrl then some (false, s)
    else if down && (sym == Key.t) && ctrl then
      some (true, { s with debug_trace_state := !s.debug_trace_state })
    else if down && (sym == Key.r) && ctrl then
      some (true, { s with reload_requested := true })
    else some (true, { s with keyState := applyKey s.keyState sym down })
  | .mouseWheel dy => some (true, { s with mouseWheel := s.mouseWheel + dy })
  | .joyAxis axis value =>
      some (true, { s with joyState := applyJoyAxis s.joyState axis value })
  | .joyHat l r u d =>
      some (true, { s with hatState := applyJoyHat s.hatState l r u d })
  | .joyButton button pressed =>
      some (true, { s with joyState := applyJoyButton s.joyState button pressed })
  | .finger ftype fingerId fx fy =>
      match processTouchEvent winx winy s ftype fingerId fx fy with
      | some s' => some (true, s')
      | none => none
  | .quit => some (true, s)
  | .other => some (true, s)

/-- Function `EVT_ProcessEvents` (hal_core.cpp lines 373–383) over a pending event
queue: an empty queue returns `true`; otherwise the first event is popped
and the function returns immediately — `false` for `SDL_QUIT`, else the
result of `INP_ProcessInputEvents` on that single event.  The result is
(continue flag, remaining queue, new state). -/
def EVT_ProcessEvents (winx winy : Nat) (s : HALState) :
    List Event → Option (Bool × List Event × HALState)
  | [] => some (true, [], s)
  | e :: rest =>
    if e == Event.quit then some (false, rest, s)
    else match INP_ProcessInputEvents winx winy s e with
      | some (b, s') => some (b, rest, s')
      | none => none

/-- Function `INP_GetInputState` (hal_core.cpp lines 385–387): the OR of the four
mask sources. -/
def INP_GetInputState (s : HALState) : Nat :=
  s.keyState ||| s.joyState ||| s.hatState ||| s.simState

/-- Function `INP_SetSimState` (hal_core.cpp lines 389–391). -/
def INP_SetSimState (s : HALState) (state : Nat) : HALState :=
  { s with simState := state }

/-- Function `HAL_StartFrame` (hal_core.cpp lines 510–513): clear the simulated mask
and the one-shot reload flag. -/
def HAL_StartFrame (s : HALState) : HALState :=
  { s with simState := 0, reload_requested := false }

/-- Function `HAL_EndFrame` (hal_core.cpp lines 515–517): advance the touch table. -/
def HAL_EndFrame (s : HALState) : HALState :=
  { s with touchState := flushTouchEvents s.touchState }

/-- Function `GFX_GetPixel` (hal_core.cpp lines 129–131): `SDL_MapRGB` on the
`SDL_PIXELFORMAT_RGB565` format allocated in `GFX_CreateBackBuffer`
(the external SDL call packs `r >> 3`, `g >> 2`, `b >> 3` into 5-6-5 bits). -/
def GFX_GetPixel (r g b : Nat) : Nat :=
  (r / 8) * 2 ^ 11 + (g / 4) * 2 ^ 5 + b / 8

/-- The two file-scope palette arrays of hal_core.cpp (lines 25–26):
`original_palette` and the working `palette`, 256 native pixel values
each. -/
structure PaletteState where
  original_palette : Fin 256 → Nat
  palette : Fin 256 → Nat

/-- Function `GFX_SelectPalette` (hal_core.cpp lines 155–164), for the spec's
256-entry palettes: each `0xRRGGBB` entry of the named table is converted
via `GFX_GetPixel` and stored in both `original_palette` and `palette`.
(The registry `GFX_GetPaletteInfo` lives in `hal_palette.cpp`, absent from
`src/`; the table contents are abstracted as `tbl`.) -/
def GFX_SelectPalette (tbl : Fin 256 → Nat) : PaletteState :=
  let conv := fun i =>
    GFX_GetPixel ((tbl i >>> 16) &&& 255) ((tbl i >>> 8) &&& 255) (tbl i &&& 255)
  { original_palette := conv, palette := conv }

/-- Function `GFX_RestorePalette` (hal_core.cpp lines 166–168). -/
def GFX_RestorePalette (ps : PaletteState) : PaletteState :=
  { ps with palette := ps.original_palette }

/-- Function `GFX_RestorePaletteIndex` (hal_core.cpp lines 170–172). -/
def GFX_RestorePaletteIndex (ps : PaletteState) (i : Fin 256) : PaletteState :=
  { ps with palette := Function.update ps.palette i (ps.original_palette i) }

/-- Function `GFX_SetPaletteIndex` (hal_core.cpp lines 174–176). -/
def GFX_SetPaletteIndex (ps : PaletteState) (i : Fin 256) (r g b : Nat) :
    PaletteState :=
  { ps with palette := Function.update ps.palette i (GFX_GetPixel r g b) }

/-- The inner column loop of `GFX_CopyBackBuffer` (hal_core.cpp lines
189–193): `for (x = 0; x < w; x++) { pixels[x] = palette[buffer[x]]; x++;
pixels[x] = palette[buffer[x]]; }` — a manual unroll by two that always
performs a pair of writes per iteration.  `r` is the remaining count
`w - x`, so the loop test `x < w` is `r > 0`; each iteration writes columns
`x` and `x + 1` of the row (reading the same columns of the source row)
and advances by two. -/
def rowLoop (pal buf dest : Nat → Nat) (pixBase bufBase : Nat) :
    Nat → Nat → Nat → Nat
  | 0, _ => dest
  | 1, x =>
    let dest := Function.update dest (pixBase + x) (pal (buf (bufBase + x)))
    Function.update dest (pixBase + x + 1) (pal (buf (bufBase + x + 1)))
  | r + 2, x =>
    let dest := Function.update dest (pixBase + x) (pal (buf (bufBase + x)))
    let dest := Function.update dest (pixBase + x + 1) (pal (buf (bufBase + x + 1)))
    rowLoop pal buf dest pixBase bufBase r (x + 2)

/-- The row loop of `GFX_CopyBackBuffer` (hal_core.cpp lines 188–196):
after each row the destination pointer advances by `stridePix =
pitch / sizeof(pixel_t)` and the source pointer by `w`. -/
def rowsLoop (pal buf : Nat → Nat) (w stridePix : Nat) :
    Nat → Nat → Nat → (Nat → Nat) → Nat → Nat
  | 0, _, _, dest => dest
  | n + 1, pixBase, bufBase, dest =>
    rowsLoop pal buf w stridePix n (pixBase + stridePix) (bufBase + w)
      (rowLoop pal buf dest pixBase bufBase w 0)

/-- Function `GFX_CopyBackBuffer` (hal_core.cpp lines 178–199) acting on the locked
texture modelled as the flat pixel array `dest`: `pal` is the working
palette (indexed by source bytes), `buf` the palette-indexed source rows of
width `w`, `h` the row count, `stridePix` the destination row stride in
pixels. -/
def GFX_CopyBackBuffer (pal buf : Nat → Nat) (w h stridePix : Nat)
    (dest : Nat → Nat) : Nat → Nat :=
  rowsLoop pal buf w stridePix h 0 0 dest

/-- The number of destination columns actually written per row by the
unrolled loop: `w` when `w` is even, `w + 1` when `w` is odd. -/
def writtenCols (w : Nat) : Nat := 2 * ((w + 1) / 2)

/-! ## Bit-level helper lemmas -/

theorem testBit_set_state_bit (s bit : Nat) (c v : Bool) (b : Nat) (hb : b < 8) :
    (set_state_bit s bit c v).testBit b =
      if c = true ∧ bit = b then v else s.testBit b := by
  have h255 : Nat.testBit 255 b = true := by
    have h : (255 : Nat) = 2 ^ 8 - 1 := rfl
    rw [h, Nat.testBit_two_pow_sub_one]
    simp [hb]
  unfold set_state_bit
  cases c with
  | false => simp
  | true =>
    cases v with
    | true =>
      by_cases hbb : bit = b <;>
        simp [Nat.one_shiftLeft, Nat.testBit_or, Nat.testBit_two_pow, hbb]
    | false =>
      rw [Nat.one_shiftLeft]
      by_cases hbb : bit = b <;>
        simp [Nat.testBit_and, Nat.testBit_xor, Nat.testBit_two_pow, hbb, h255]

theorem testBit_set_state_bit' (s bit : Nat) (c v : Bool) (b : Fin 8) :
    (set_state_bit s bit c v).testBit b.val =
      if c = true ∧ bit = b.val then v else s.testBit b.val :=
  testBit_set_state_bit s bit c v b.val b.isLt

/-- The physical keys that drive each keyboard-mask bit, read off the
`set_state_bit` chain of `INP_ProcessInputEvents` (bit 6 is driven by both
`P` and `RETURN`). -/
def keysForBit : Nat → List Key
  | 0 => [Key.left]
  | 1 => [Key.right]
  | 2 => [Key.up]
  | 3 => [Key.down]
  | 4 => [Key.z]
  | 5 => [Key.x]
  | 6 => [Key.p, Key.ret]
  | 7 => [Key.escape]
  | _ => []

theorem testBit_applyKey (ks : Nat) (sym : Key) (d : Bool) (b : Fin 8) :
    (applyKey ks sym d).testBit b.val =
      if sym ∈ keysForBit b.val then d else ks.testBit b.val := by
  simp only [applyKey, testBit_set_state_bit']
  fin_cases b <;> cases sym <;> simp [keysForBit]

/-! ## C3: keyboard-mask semantics -/

/-- A sequence of key events (`down?`, symbol) folded through the keyboard
block of `INP_ProcessInputEvents`. -/
def processKeys (ks : Nat) (evs : List (Bool × Key)) : Nat :=
  evs.foldl (fun st e => applyKey st e.2 e.1) ks

/-- The claim's per-physical-key semantics: whether the most recent event
for physical key `k` in the sequence was a down event (`false` if `k` never
occurs). -/
def lastEventDown (evs : List (Bool × Key)) (k : Key) : Bool :=
  evs.foldl (fun acc e => if e.2 == k then e.1 else acc) false

/-- What the code actually implements per mask bit: the most recent event
for ANY key mapped to the bit decides it (down sets, up clears), starting
from the bit's previous value. -/
def lastMaskEvent (evs : List (Bool × Key)) (b : Nat) (init : Bool) : Bool :=
  evs.foldl (fun acc e => if e.2 ∈ keysForBit b then e.1 else acc) init

/-- C3 counterexample: with P held down, pressing and releasing RETURN
clears shared bit 6 even though P's most recent event is still a down
event, so the mask bit is NOT the OR over mapped keys of
"most recent event for that key was down". -/
theorem processKeys_shared_bit_counterexample :
    (processKeys 0 [(true, Key.p), (true, Key.ret), (false, Key.ret)]).testBit 6
        = false
    ∧ (keysForBit 6).any
        (lastEventDown [(true, Key.p), (true, Key.ret), (false, Key.ret)])
        = true := by
  constructor
  · decide
  · decide

/-- C3 (amended): each keyboard-mask bit equals "the most recent key event
for a physical key mapped to that bit was a down event" (with the bit's
prior value when no mapped key occurs): repeated downs are idempotent and a
down followed by an up of the same key clears the bit, but an up event of
one mapped key clears a shared bit regardless of the other mapped key. -/
theorem processKeys_bit_spec :
    (∀ (ks : Nat) (evs : List (Bool × Key)) (b : Fin 8),
        (processKeys ks evs).testBit b.val
          = lastMaskEvent evs b.val (ks.testBit b.val))
    ∧ (∀ (ks : Nat) (k : Key) (b : Fin 8),
        (applyKey (applyKey ks k true) k true).testBit b.val
          = (applyKey ks k true).testBit b.val)
    ∧ (∀ (ks : Nat) (k : Key) (b : Fin 8), k ∈ keysForBit b.val →
        (applyKey (applyKey ks k true) k false).testBit b.val = false) := by
  have master : ∀ (evs : List (Bool × Key)) (ks : Nat) (b : Fin 8),
      (processKeys ks evs).testBit b.val
        = lastMaskEvent evs b.val (ks.testBit b.val) := by
    intro evs
    induction evs with
    | nil => intro ks b; rfl
    | cons e evs ih =>
      intro ks b
      show (processKeys (applyKey ks e.2 e.1) evs).testBit b.val = _
      rw [ih, testBit_applyKey]
      rfl
  refine ⟨fun ks evs b => master evs ks b, ?_, ?_⟩
  · intro ks k b
    rw [testBit_applyKey, testBit_applyKey]
    by_cases h : k ∈ keysForBit b.val <;> simp [h, testBit_applyKey]
  · intro ks k b h
    rw [testBit_applyKey]
    simp [h]

/-- Witness for `processKeys_bit_spec`: instantiates the down-then-up part
at bit 6 and key P. -/
theorem processKeys_bit_spec_witness :
    Key.p ∈ keysForBit (6 : Fin 8).val
    ∧ (applyKey (applyKey 77 Key.p true) Key.p false).testBit (6 : Fin 8).val
        = false :=
  ⟨by decide, processKeys_bit_spec.2.2 77 Key.p 6 (by decide)⟩

/-! ## C2: touch state machine frame advance -/

theorem flushTouchInfo_eq (t : TouchInfo) :
    flushTouchInfo t =
      if t.state.justReleased then { t with state := TouchFlags.none }
      else { t with state := { t.state with justPressed := false } } := by
  obtain ⟨x, y, p, jp, jr⟩ := t
  cases jp <;> cases jr <;> simp [flushTouchInfo, TouchFlags.none]

/-- C2: `endFrame` (`HAL_EndFrame` → `flushTouchEvents`) clears `JustPressed`
on every slot while leaving `Pressed` as it was, resets every slot with
`JustReleased` entirely to `None`, and a motion event never re-sets
`JustPressed` and never clears `Pressed`; hence a `JustPressed` observed in
frame N is absent in frame N+1 regardless of further motion events, and a
`JustReleased` slot is `None` in frame N+1. -/
theorem touch_frame_advance :
    (∀ (s : HALState) (i : Fin 8),
        ((HAL_EndFrame s).touchState i) = flushTouchInfo (s.touchState i))
    ∧ (∀ (ts : Fin 8 → TouchInfo) (i : Fin 8),
        ((flushTouchEvents ts) i).state.justPressed = false)
    ∧ (∀ (ts : Fin 8 → TouchInfo) (i : Fin 8),
        (ts i).state.justReleased = false →
        ((flushTouchEvents ts) i).state.pressed = (ts i).state.pressed)
    ∧ (∀ (ts : Fin 8 → TouchInfo) (i : Fin 8),
        (ts i).state.justReleased = true →
        ((flushTouchEvents ts) i).state = TouchFlags.none)
    ∧ (∀ (winx winy : Nat) (s : HALState) (id : ℤ) (fx fy : ℚ) (s' : HALState),
        processTouchEvent winx winy s fingerMotion id fx fy = some s' →
        ∀ i : Fin 8,
          (s'.touchState i).state.justPressed
              = (s.touchState i).state.justPressed
          ∧ ((s.touchState i).state.pressed = true →
              (s'.touchState i).state.pressed = true)) := by
  refine ⟨fun s i => rfl, ?_, ?_, ?_, ?_⟩
  · intro ts i
    show (flushTouchInfo (ts i)).state.justPressed = false
    rw [flushTouchInfo_eq]
    split_ifs <;> simp [TouchFlags.none]
  · intro ts i h
    show (flushTouchInfo (ts i)).state.pressed = (ts i).state.pressed
    rw [flushTouchInfo_eq, if_neg (by simp [h])]
  · intro ts i h
    show (flushTouchInfo (ts i)).state = TouchFlags.none
    rw [flushTouchInfo_eq, if_pos h]
  · intro winx winy s id fx fy s' h i
    simp only [processTouchEvent] at h
    split at h
    · split at h
      · simp only [Option.some_inj] at h
        subst h
        simp only [fingerDown, fingerMotion, fingerUp]
        norm_num
        by_cases hi : i = (⟨id.toNat, by omega⟩ : Fin 8)
        · subst hi
          simp [Function.update]
        · simp [Function.update, hi]
      · exact absurd h (by simp)
    · simp only [Option.some_inj] at h
      subst h
      exact ⟨rfl, fun hp => hp⟩

/-- Witness for `touch_frame_advance`: a slot with `JustReleased` set is
reset to `None` by the end-of-frame flush, and one without it keeps its
`Pressed` bit. -/
theorem touch_frame_advance_witness :
    ((fun _ : Fin 8 => TouchInfo.mk 3 4 ⟨true, false, true⟩) 0).state.justReleased
        = true
    ∧ ((flushTouchEvents (fun _ => TouchInfo.mk 3 4 ⟨true, false, true⟩)) 0).state
        = TouchFlags.none :=
  ⟨rfl, touch_frame_advance.2.2.2.1 (fun _ => TouchInfo.mk 3 4 ⟨true, false, true⟩)
    0 rfl⟩

/-! ## C4: mask combination and frame start -/

theorem testBit_applyKey' (ks : Nat) (sym : Key) (d : Bool) (b : Nat)
    (hb : b < 8) :
    (applyKey ks sym d).testBit b =
      if sym ∈ keysForBit b then d else ks.testBit b :=
  testBit_applyKey ks sym d ⟨b, hb⟩

/-- C4: `getInputState` is the bitwise OR of the four mask sources;
`beginFrame` (`HAL_StartFrame`) zeroes exactly the simulated mask and the
reload flag, leaving the keyboard/joystick/hat masks and the touch table
unchanged; with keyboard bit 2 and simulated bit 2 both set the combined
bit 2 is set, a key-up of the UP key clears only the keyboard source and
leaves the combined bit set, and `HAL_StartFrame` then clears the simulated
mask. -/
theorem inputState_combine_beginFrame :
    (∀ (s : HALState) (b : Nat),
        (INP_GetInputState s).testBit b
          = (s.keyState.testBit b || s.joyState.testBit b
              || s.hatState.testBit b || s.simState.testBit b))
    ∧ (∀ s : HALState,
        (HAL_StartFrame s).simState = 0
        ∧ (HAL_StartFrame s).reload_requested = false
        ∧ (HAL_StartFrame s).keyState = s.keyState
        ∧ (HAL_StartFrame s).joyState = s.joyState
        ∧ (HAL_StartFrame s).hatState = s.hatState
        ∧ (HAL_StartFrame s).touchState = s.touchState
        ∧ (HAL_StartFrame s).mouseWheel = s.mouseWheel)
    ∧ (∀ s : HALState, s.keyState.testBit 2 = true → s.simState.testBit 2 = true →
        (INP_GetInputState s).testBit 2 = true)
    ∧ (∀ (winx winy : Nat) (s : HALState), s.simState.testBit 2 = true →
        ∃ s' : HALState,
          INP_ProcessInputEvents winx winy s (.key false Key.up false)
              = some (true, s')
          ∧ s'.keyState.testBit 2 = false
          ∧ (INP_GetInputState s').testBit 2 = true
          ∧ ((HAL_StartFrame s').simState).testBit 2 = false) := by
  have hcomb : ∀ (s : HALState) (b : Nat),
      (INP_GetInputState s).testBit b
        = (s.keyState.testBit b || s.joyState.testBit b
            || s.hatState.testBit b || s.simState.testBit b) := by
    intro s b
    simp [INP_GetInputState, Nat.testBit_or]
  refine ⟨hcomb, fun s => ⟨rfl, rfl, rfl, rfl, rfl, rfl, rfl⟩, ?_, ?_⟩
  · intro s h2 _
    rw [hcomb, h2]
    simp
  · intro winx winy s hsim
    refine ⟨{ s with keyState := applyKey s.keyState Key.up false }, rfl, ?_, ?_, ?_⟩
    · rw [testBit_applyKey' _ _ _ 2 (by omega)]
      simp [keysForBit]
    · rw [hcomb]
      simp [hsim]
    · show (0 : Nat).testBit 2 = false
      exact Nat.zero_testBit 2

/-- Witness for `inputState_combine_beginFrame`: the level-triggered
scenario at a concrete state with keyboard bit 2 and simulated bit 2 set. -/
theorem inputState_combine_beginFrame_witness :
    (4 : Nat).testBit 2 = true
    ∧ (INP_GetInputState ⟨4, 0, 0, 4, 0, fun _ => TouchInfo.empty,
        false, false, 128, 128⟩).testBit 2 = true :=
  ⟨by decide, inputState_combine_beginFrame.2.2.1
    ⟨4, 0, 0, 4, 0, fun _ => TouchInfo.empty, false, false, 128, 128⟩
    (by decide) (by decide)⟩

/-! ## C7: joystick axis deadzone -/

theorem testBit_applyJoyAxis (js : Nat) (axis : Nat) (value : ℤ) (b : Nat)
    (hb : b < 8) :
    (applyJoyAxis js axis value).testBit b =
      if axis = 0 ∧ b = 0 then decide (value < -1500)
      else if axis = 0 ∧ b = 1 then decide (value > 1500)
      else if axis = 1 ∧ b = 2 then decide (value < -1500)
      else if axis = 1 ∧ b = 3 then decide (value > 1500)
      else js.testBit b := by
  simp only [applyJoyAxis]
  rw [testBit_set_state_bit _ _ _ _ _ hb, testBit_set_state_bit _ _ _ _ _ hb,
    testBit_set_state_bit _ _ _ _ _ hb, testBit_set_state_bit _ _ _ _ _ hb]
  simp only [beq_iff_eq]
  rcases Nat.lt_or_ge axis 2 with h2 | h2
  · interval_cases axis <;> interval_cases b <;> simp
  · have h0 : axis ≠ 0 := by omega
    have h1 : axis ≠ 1 := by omega
    interval_cases b <;> simp [h0, h1]

/-- C7: a joystick-axis event sets the bit of its direction and clears the
opposite bit when the magnitude exceeds the 1500 deadzone, clears both bits
of the axis at or below the deadzone, never leaves both direction bits of
the event's axis set, and in particular axis 0 value −2000 sets bit 0 and
clears bit 1, and a following value 0 clears bit 0. -/
theorem joyAxis_deadzone_spec :
    (∀ (winx winy : Nat) (s : HALState) (axis : Nat) (value : ℤ),
        INP_ProcessInputEvents winx winy s (.joyAxis axis value)
          = some (true, { s with joyState := applyJoyAxis s.joyState axis value }))
    ∧ (∀ (js : Nat) (value : ℤ),
        (value < -1500 →
          (applyJoyAxis js 0 value).testBit 0 = true
          ∧ (applyJoyAxis js 0 value).testBit 1 = false
          ∧ (applyJoyAxis js 1 value).testBit 2 = true
          ∧ (applyJoyAxis js 1 value).testBit 3 = false)
        ∧ (1500 < value →
          (applyJoyAxis js 0 value).testBit 1 = true
          ∧ (applyJoyAxis js 0 value).testBit 0 = false
          ∧ (applyJoyAxis js 1 value).testBit 3 = true
          ∧ (applyJoyAxis js 1 value).testBit 2 = false)
        ∧ (-1500 ≤ value → value ≤ 1500 →
          (applyJoyAxis js 0 value).testBit 0 = false
          ∧ (applyJoyAxis js 0 value).testBit 1 = false
          ∧ (applyJoyAxis js 1 value).testBit 2 = false
          ∧ (applyJoyAxis js 1 value).testBit 3 = false)
        ∧ ((applyJoyAxis js 0 value).testBit 0
            && (applyJoyAxis js 0 value).testBit 1) = false
        ∧ ((applyJoyAxis js 1 value).testBit 2
            && (applyJoyAxis js 1 value).testBit 3) = false)
    ∧ (applyJoyAxis 0 0 (-2000)).testBit 0 = true
    ∧ (applyJoyAxis 0 0 (-2000)).testBit 1 = false
    ∧ (applyJoyAxis (applyJoyAxis 0 0 (-2000)) 0 0).testBit 0 = false := by
  refine ⟨fun winx winy s axis value => rfl, ?_, by decide, by decide, by decide⟩
  intro js value
  rw [testBit_applyJoyAxis _ _ _ 0 (by omega), testBit_applyJoyAxis _ _ _ 1 (by omega),
    testBit_applyJoyAxis _ _ _ 2 (by omega), testBit_applyJoyAxis _ _ _ 3 (by omega)]
  refine ⟨?_, ?_, ?_, ?_, ?_⟩
  · intro h
    have h' : ¬(1500 < value) := by omega
    simp [h, h']
  · intro h
    have h' : ¬(value < -1500) := by omega
    simp [h, h']
  · intro h1 h2
    have ha : ¬(value < -1500) := by omega
    have hb : ¬(1500 < value) := by omega
    simp [ha, hb]
  · by_cases hv : value < -1500
    · have h' : ¬(1500 < value) := by omega
      simp [hv, h']
    · simp [hv]
  · by_cases hv : value < -1500
    · have h' : ¬(1500 < value) := by omega
      simp [hv, h']
    · simp [hv]

/-- Witness for `joyAxis_deadzone_spec`: axis 0 at value −2000 (beyond the
deadzone) sets bit 0 and clears bit 1 from an arbitrary prior mask. -/
theorem joyAxis_deadzone_spec_witness :
    (-2000 : ℤ) < -1500
    ∧ (applyJoyAxis 255 0 (-2000)).testBit 0 = true
    ∧ (applyJoyAxis 255 0 (-2000)).testBit 1 = false
    ∧ (applyJoyAxis 255 1 (-2000)).testBit 2 = true
    ∧ (applyJoyAxis 255 1 (-2000)).testBit 3 = false :=
  ⟨by decide, (joyAxis_deadzone_spec.2.1 255 (-2000)).1 (by decide)⟩

/-! ## C5: touch routing and capacity -/

/-- A concrete HAL state used to instantiate theorems: all masks clear,
empty touch table, virtual size 128×128. -/
def halState0 : HALState :=
  ⟨0, 0, 0, 0, 0, fun _ => TouchInfo.empty, false, false, 128, 128⟩

/-- C5 counterexample: a finger-down event with finger id 9 is dropped
unchanged — in particular slot 9 % 8 = 1 does NOT get `JustPressed` —
so events are not routed by finger id modulo the table size. -/
theorem processTouch_mod8_counterexample :
    processTouchEvent 640 480 halState0 fingerDown 9 (1/2) (1/2) = some halState0
    ∧ (halState0.touchState ⟨9 % 8, by omega⟩).state.justPressed = false :=
  ⟨rfl, rfl⟩

/-- C5 (amended): a touch event with finger id in `[0, 8)` is routed to
slot `id` directly (which equals `id mod 8` on that range): the
position is converted from normalized coordinates to virtual pixels via
the window size and `scaleMouse`, down sets `JustPressed|Pressed`, motion
sets `Pressed` without clearing `JustPressed`, up sets `JustReleased`, and
other slots are untouched; an event with id ≥ 8 is silently dropped
without modifying any slot (ids beyond capacity are NOT wrapped mod 8). -/
theorem processTouch_routing_spec :
    ∀ (winx winy : Nat) (s : HALState) (ftype : Nat) (id : ℤ) (fx fy : ℚ),
      (8 ≤ id → processTouchEvent winx winy s ftype id fx fy = some s)
      ∧ (0 ≤ id → id < 8 →
          ∃ s', processTouchEvent winx winy s ftype id fx fy = some s'
            ∧ (∀ j : Fin 8, (j : Nat) ≠ id.toNat → s'.touchState j = s.touchState j)
            ∧ ∀ j : Fin 8, (j : Nat) = id.toNat →
                ((s'.touchState j).x, (s'.touchState j).y)
                    = scaleMouse winx winy s.screenWidth s.screenHeight
                        (itrunc (fx * (winx : ℚ))) (itrunc (fy * (winy : ℚ)))
                ∧ (ftype = fingerDown →
                    (s'.touchState j).state
                      = { (s.touchState j).state with
                          pressed := true, justPressed := true })
                ∧ (ftype = fingerMotion →
                    (s'.touchState j).state
                      = { (s.touchState j).state with pressed := true })
                ∧ (ftype = fingerUp →
                    (s'.touchState j).state
                      = { (s.touchState j).state with justReleased := true })) := by
  intro winx winy s ftype id fx fy
  constructor
  · intro h8
    unfold processTouchEvent
    rw [dif_neg (by omega)]
  · intro h0 h8
    unfold processTouchEvent
    rw [dif_pos h8, dif_pos h0]
    refine ⟨_, rfl, ?_, ?_⟩
    · intro j hj
      exact Function.update_noteq (fun hc => hj (by rw [hc])) _ _
    · have hlt : id.toNat < 8 := by omega
      intro j hj
      have hjt : j = (⟨id.toNat, hlt⟩ : Fin 8) := Fin.ext hj
      rw [hjt]
      dsimp only
      rw [Function.update_same]
      refine ⟨rfl, ?_, ?_, ?_⟩
      · intro ht; subst ht; rfl
      · intro ht; subst ht; rfl
      · intro ht; subst ht; rfl

/-- Witness for `processTouch_routing_spec`: a finger-up event with id 9
(beyond the 8-slot capacity) leaves the state unchanged. -/
theorem processTouch_routing_spec_witness :
    (8 : ℤ) ≤ 9
    ∧ processTouchEvent 640 480 halState0 fingerUp 9 0 0 = some halState0 :=
  ⟨by decide,
    (processTouch_routing_spec 640 480 halState0 fingerUp 9 0 0).1 (by decide)⟩

/-! ## C6: the event-poll loop processes at most one event -/

/-- C6: one call to `EVT_ProcessEvents` pops at most one pending event: with
two wheel events queued it consumes only the first (accumulating only its
delta) and leaves the second queued; an empty queue yields `true`, and a
leading `SDL_QUIT` yields `false`.  The `while` loop of the source returns
inside its body on every path, so it cannot drain the queue. -/
theorem evt_process_single_event :
    EVT_ProcessEvents 640 480 halState0 [Event.mouseWheel 1, Event.mouseWheel 2]
      = some (true, [Event.mouseWheel 2], { halState0 with mouseWheel := 1 })
    ∧ EVT_ProcessEvents 640 480 halState0 [] = some (true, [], halState0)
    ∧ EVT_ProcessEvents 640 480 halState0 [Event.quit]
        = some (false, [], halState0) :=
  ⟨rfl, rfl, rfl⟩

/-! ## C10: the touch-slot bounds check -/

/-- C10: the source's bounds test `idx < 0 && idx >= size` is always false,
so `INP_GetTouchInfo` never returns the default record and instead indexes
`touchState[idx]` for every argument — out of bounds (modelled `none`) at
`idx = 8` and `idx = -1` — while the intended `||` validation
(`INP_GetTouchInfo_intended`) is total: default out of range and slot `idx`
in range. -/
theorem touchInfo_bounds_bug :
    (∀ idx : ℤ, touchIdxGuard idx = false)
    ∧ (∀ ts : Fin 8 → TouchInfo, INP_GetTouchInfo ts 8 = none)
    ∧ (∀ ts : Fin 8 → TouchInfo, INP_GetTouchInfo ts (-1) = none)
    ∧ (∀ (ts : Fin 8 → TouchInfo) (i : Fin 8),
        INP_GetTouchInfo ts ((i : Nat) : ℤ) = some (ts i))
    ∧ (∀ (ts : Fin 8 → TouchInfo) (idx : ℤ), idx < 0 ∨ 8 ≤ idx →
        INP_GetTouchInfo_intended ts idx = TouchInfo.empty)
    ∧ (∀ (ts : Fin 8 → TouchInfo) (i : Fin 8),
        INP_GetTouchInfo_intended ts ((i : Nat) : ℤ) = ts i) := by
  have hguard : ∀ idx : ℤ, touchIdxGuard idx = false := by
    intro idx
    simp only [touchIdxGuard, Bool.and_eq_false_iff, decide_eq_false_iff_not]
    omega
  refine ⟨hguard, fun ts => rfl, fun ts => rfl, ?_, ?_, ?_⟩
  · intro ts i
    have h0 : (0 : ℤ) ≤ ((i : Nat) : ℤ) := Int.natCast_nonneg _
    have h8 : (((i : Nat) : ℤ)) < 8 := by exact_mod_cast i.isLt
    unfold INP_GetTouchInfo
    rw [hguard, if_neg (by simp), dif_pos ⟨h0, h8⟩]
    simp
  · intro ts idx h
    unfold INP_GetTouchInfo_intended
    rw [dif_pos (by omega)]
  · intro ts i
    have h8 := i.isLt
    unfold INP_GetTouchInfo_intended
    rw [dif_neg (by omega)]
    simp

/-- Witness for `touchInfo_bounds_bug`: the intended validation returns the
default record at index −5. -/
theorem touchInfo_bounds_bug_witness :
    ((-5 : ℤ) < 0 ∨ (8 : ℤ) ≤ -5)
    ∧ INP_GetTouchInfo_intended (fun _ => TouchInfo.mk 1 2 ⟨true, true, false⟩)
        (-5) = TouchInfo.empty :=
  ⟨Or.inl (by decide),
    touchInfo_bounds_bug.2.2.2.2.1 (fun _ => TouchInfo.mk 1 2 ⟨true, true, false⟩)
      (-5) (Or.inl (by decide))⟩

/-! ## C9: palette round-trip -/

/-- A sequence of `setPaletteIndex` calls (index, r, g, b) applied in
order. -/
def applySetOps (ps : PaletteState) (ops : List (Fin 256 × Nat × Nat × Nat)) :
    PaletteState :=
  ops.foldl (fun st op => GFX_SetPaletteIndex st op.1 op.2.1 op.2.2.1 op.2.2.2) ps

/-- C9: `setPaletteIndex` writes only `working[i]` and never touches the
original palette; `restorePaletteIndex i` makes `working[i]` equal to
`original[i]`; after selecting a palette and any interleaving of
`setPaletteIndex` calls, `restorePaletteIndex i` recovers the
selection-time entry — in particular select, `setIndex(3,10,20,30)`,
`restoreIndex(3)` leaves working entry 3 equal to the pre-override
original entry 3. -/
theorem palette_roundtrip_spec :
    (∀ (ps : PaletteState) (i : Fin 256) (r g b : Nat),
        (GFX_SetPaletteIndex ps i r g b).original_palette = ps.original_palette
        ∧ (GFX_SetPaletteIndex ps i r g b).palette i = GFX_GetPixel r g b
        ∧ ∀ j : Fin 256, j ≠ i →
            (GFX_SetPaletteIndex ps i r g b).palette j = ps.palette j)
    ∧ (∀ (ps : PaletteState) (i : Fin 256),
        (GFX_RestorePaletteIndex ps i).palette i = ps.original_palette i
        ∧ (GFX_RestorePaletteIndex ps i).original_palette = ps.original_palette)
    ∧ (∀ ps : PaletteState, (GFX_RestorePalette ps).palette = ps.original_palette)
    ∧ (∀ (tbl : Fin 256 → Nat) (ops : List (Fin 256 × Nat × Nat × Nat))
          (i : Fin 256),
        (GFX_RestorePaletteIndex (applySetOps (GFX_SelectPalette tbl) ops) i).palette i
          = (GFX_SelectPalette tbl).original_palette i)
    ∧ (∀ tbl : Fin 256 → Nat,
        (GFX_RestorePaletteIndex
            (GFX_SetPaletteIndex (GFX_SelectPalette tbl) 3 10 20 30) 3).palette 3
          = (GFX_SelectPalette tbl).original_palette 3) := by
  have horig : ∀ (ops : List (Fin 256 × Nat × Nat × Nat)) (ps : PaletteState),
      (applySetOps ps ops).original_palette = ps.original_palette := by
    intro ops
    induction ops with
    | nil => intro ps; rfl
    | cons op ops ih =>
      intro ps
      show (applySetOps (GFX_SetPaletteIndex ps op.1 op.2.1 op.2.2.1 op.2.2.2)
        ops).original_palette = _
      rw [ih]
      rfl
  refine ⟨?_, ?_, fun ps => rfl, ?_, ?_⟩
  · intro ps i r g b
    exact ⟨rfl, Function.update_same _ _ _,
      fun j hj => Function.update_noteq hj _ _⟩
  · intro ps i
    exact ⟨Function.update_same _ _ _, rfl⟩
  · intro tbl ops i
    show (Function.update (applySetOps (GFX_SelectPalette tbl) ops).palette i
        ((applySetOps (GFX_SelectPalette tbl) ops).original_palette i)) i = _
    rw [Function.update_same, horig]
  · intro tbl
    show (Function.update
        (GFX_SetPaletteIndex (GFX_SelectPalette tbl) 3 10 20 30).palette 3
        ((GFX_SetPaletteIndex (GFX_SelectPalette tbl) 3 10 20 30).original_palette 3)) 3 = _
    rw [Function.update_same]
    rfl

/-- Witness for `palette_roundtrip_spec`: overriding entry 3 leaves entry 4
of the working palette unchanged. -/
theorem palette_roundtrip_spec_witness :
    ((4 : Fin 256) ≠ 3)
    ∧ (GFX_SetPaletteIndex (GFX_SelectPalette fun _ => 0) 3 10 20 30).palette 4
        = (GFX_SelectPalette fun _ => 0).palette 4 :=
  ⟨by decide,
    (palette_roundtrip_spec.1 (GFX_SelectPalette fun _ => 0) 3 10 20 30).2.2 4
      (by decide)⟩

/-! ## C1: letterboxed display area -/

theorem getDisplayArea_if_pos (winx winy sw sh : Nat)
    (hc : (winx : ℚ) / sw * sh > (winy : ℚ)) :
    getDisplayArea winx winy sw sh =
      (⟨winx / 2 - (⌊(winy : ℚ) / sh * sw⌋).toNat / 2, 0,
        (⌊(winy : ℚ) / sh * sw⌋).toNat, winy⟩, (winy : ℚ) / sh) := by
  simp only [getDisplayArea]
  rw [if_pos hc]

theorem getDisplayArea_if_neg (winx winy sw sh : Nat)
    (hc : ¬((winx : ℚ) / sw * sh > (winy : ℚ))) :
    getDisplayArea winx winy sw sh =
      (⟨0, winy / 2 - (⌊(winx : ℚ) / sw * sh⌋).toNat / 2, winx,
        (⌊(winx : ℚ) / sw * sh⌋).toNat⟩, (winx : ℚ) / sw) := by
  simp only [getDisplayArea]
  rw [if_neg hc]

/-- C1: for positive physical size `(winx, winy)` and virtual size
`(sw, sh)` the mapper's scale is `min (winx/sw) (winy/sh)`, the rectangle's
width and height are the integer truncations of `scale·sw` and `scale·sh`
(exact in the constrained dimension), the rectangle fits in the physical
surface and is centered in it to within one pixel of integer division;
in particular 640×480 physical with 128×128 virtual gives scale 15/4 = 3.75
and rectangle origin (80,0), size 480×480. -/
theorem displayArea_letterbox_spec :
    (∀ winx winy sw sh : Nat, 0 < winx → 0 < winy → 0 < sw → 0 < sh →
      (getDisplayArea winx winy sw sh).2
          = min ((winx : ℚ) / sw) ((winy : ℚ) / sh)
      ∧ (((getDisplayArea winx winy sw sh).1.w : ℤ)
          = ⌊(getDisplayArea winx winy sw sh).2 * sw⌋)
      ∧ (((getDisplayArea winx winy sw sh).1.h : ℤ)
          = ⌊(getDisplayArea winx winy sw sh).2 * sh⌋)
      ∧ (getDisplayArea winx winy sw sh).1.w ≤ winx
      ∧ (getDisplayArea winx winy sw sh).1.h ≤ winy
      ∧ |(winx : ℤ) - 2 * (getDisplayArea winx winy sw sh).1.x
          - (getDisplayArea winx winy sw sh).1.w| ≤ 1
      ∧ |(winy : ℤ) - 2 * (getDisplayArea winx winy sw sh).1.y
          - (getDisplayArea winx winy sw sh).1.h| ≤ 1)
    ∧ getDisplayArea 640 480 128 128 = (⟨80, 0, 480, 480⟩, 15 / 4) := by
  constructor
  · intro winx winy sw sh hwx hwy hsw hsh
    have hsw' : (0 : ℚ) < sw := by exact_mod_cast hsw
    have hsh' : (0 : ℚ) < sh := by exact_mod_cast hsh
    by_cases hc : (winx : ℚ) / sw * sh > (winy : ℚ)
    · rw [getDisplayArea_if_pos winx winy sw sh hc]
      dsimp only
      have hlt : (winy : ℚ) / sh < (winx : ℚ) / sw := (div_lt_iff₀ hsh').mpr hc
      have hmin : min ((winx : ℚ) / sw) ((winy : ℚ) / sh) = (winy : ℚ) / sh :=
        min_eq_right (le_of_lt hlt)
      have hnn : (0 : ℚ) ≤ (winy : ℚ) / sh * sw := by positivity
      have hfl : (0 : ℤ) ≤ ⌊(winy : ℚ) / sh * sw⌋ := Int.floor_nonneg.mpr hnn
      have hwleq : (winy : ℚ) / sh * sw < winx := by
        calc (winy : ℚ) / sh * sw < (winx : ℚ) / sw * sw :=
              mul_lt_mul_of_pos_right hlt hsw'
          _ = winx := div_mul_cancel₀ _ (ne_of_gt hsw')
      have hflt : ⌊(winy : ℚ) / sh * sw⌋ < (winx : ℤ) := by
        rw [Int.floor_lt]
        exact_mod_cast hwleq
      have hWle : (⌊(winy : ℚ) / sh * sw⌋).toNat ≤ winx := by omega
      refine ⟨hmin.symm, ?_, ?_, hWle, le_refl _, ?_, ?_⟩
      · exact Int.toNat_of_nonneg hfl
      · rw [div_mul_cancel₀ _ (ne_of_gt hsh')]
        rw [Int.floor_natCast]
      · rw [abs_le]
        omega
      · rw [abs_le]
        omega
    · rw [getDisplayArea_if_neg winx winy sw sh hc]
      dsimp only
      push_neg at hc
      have hle : (winx : ℚ) / sw ≤ (winy : ℚ) / sh := (le_div_iff₀ hsh').mpr hc
      have hmin : min ((winx : ℚ) / sw) ((winy : ℚ) / sh) = (winx : ℚ) / sw :=
        min_eq_left hle
      have hnn : (0 : ℚ) ≤ (winx : ℚ) / sw * sh := by positivity
      have hfl : (0 : ℤ) ≤ ⌊(winx : ℚ) / sw * sh⌋ := Int.floor_nonneg.mpr hnn
      have hflt : ⌊(winx : ℚ) / sw * sh⌋ ≤ (winy : ℤ) := by
        have h := Int.floor_le_floor hc
        rwa [Int.floor_natCast] at h
      have hHle : (⌊(winx : ℚ) / sw * sh⌋).toNat ≤ winy := by omega
      refine ⟨hmin.symm, ?_, ?_, le_refl _, hHle, ?_, ?_⟩
      · rw [div_mul_cancel₀ _ (ne_of_gt hsw')]
        rw [Int.floor_natCast]
      · exact Int.toNat_of_nonneg hfl
      · rw [abs_le]
        omega
      · rw [abs_le]
        omega
  · rw [getDisplayArea_if_pos 640 480 128 128 (by norm_num)]
    have hq : ((480 : ℕ) : ℚ) / ((128 : ℕ) : ℚ) * ((128 : ℕ) : ℚ)
        = ((480 : ℕ) : ℚ) := by norm_num
    norm_num [hq]
    constructor
    · decide
    · rfl

/-- Witness for `displayArea_letterbox_spec`: the general part instantiated
at the 640×480 / 128×128 scenario. -/
theorem displayArea_letterbox_spec_witness :
    0 < 640 ∧ 0 < 480 ∧ 0 < 128
    ∧ (getDisplayArea 640 480 128 128).2
        = min ((640 : ℚ) / 128) ((480 : ℚ) / 128) :=
  ⟨by decide, by decide, by decide,
    (displayArea_letterbox_spec.1 640 480 128 128 (by decide) (by decide)
      (by decide) (by decide)).1⟩

/-! ## C8: the back-buffer copy loop -/

theorem rowLoop_spec (pal buf : Nat → Nat) (pixBase bufBase : Nat) :
    ∀ (r x : Nat) (dest : Nat → Nat) (i : Nat),
      rowLoop pal buf dest pixBase bufBase r x i =
        if pixBase + x ≤ i ∧ i < pixBase + x + 2 * ((r + 1) / 2)
        then pal (buf (bufBase + (i - pixBase)))
        else dest i := by
  intro r
  induction r using Nat.strong_induction_on with
  | _ r ih =>
    rcases r with _ | _ | r
    · intro x dest i
      simp only [rowLoop]
      rw [if_neg (by omega)]
    · intro x dest i
      simp only [rowLoop]
      by_cases h1 : i = pixBase + x + 1
      · subst h1
        rw [Function.update_same, if_pos (by omega)]
        have he : bufBase + (pixBase + x + 1 - pixBase) = bufBase + x + 1 := by omega
        rw [he]
      · rw [Function.update_noteq h1]
        by_cases h0 : i = pixBase + x
        · subst h0
          rw [Function.update_same, if_pos (by omega)]
          have he : bufBase + (pixBase + x - pixBase) = bufBase + x := by omega
          rw [he]
        · rw [Function.update_noteq h0, if_neg (by omega)]
    · intro x dest i
      simp only [rowLoop]
      rw [ih r (by omega) (x + 2)]
      by_cases hcov : pixBase + (x + 2) ≤ i ∧ i < pixBase + (x + 2) + 2 * ((r + 1) / 2)
      · rw [if_pos hcov, if_pos (by omega)]
      · rw [if_neg hcov]
        by_cases h1 : i = pixBase + x + 1
        · subst h1
          rw [Function.update_same, if_pos (by omega)]
          have he : bufBase + (pixBase + x + 1 - pixBase) = bufBase + x + 1 := by omega
          rw [he]
        · rw [Function.update_noteq h1]
          by_cases h0 : i = pixBase + x
          · subst h0
            rw [Function.update_same, if_pos (by omega)]
            have he : bufBase + (pixBase + x - pixBase) = bufBase + x := by omega
            rw [he]
          · rw [Function.update_noteq h0, if_neg (by omega)]

theorem rowsLoop_untouched (pal buf : Nat → Nat) (w stride : Nat) :
    ∀ (n pixBase bufBase : Nat) (dest : Nat → Nat) (i : Nat),
      (∀ k j, k < n → j < 2 * ((w + 1) / 2) → i ≠ pixBase + k * stride + j) →
      rowsLoop pal buf w stride n pixBase bufBase dest i = dest i := by
  intro n
  induction n with
  | zero => intro pixBase bufBase dest i _; rfl
  | succ n ih =>
    intro pixBase bufBase dest i h
    show rowsLoop pal buf w stride n (pixBase + stride) (bufBase + w)
      (rowLoop pal buf dest pixBase bufBase w 0) i = dest i
    rw [ih]
    · rw [rowLoop_spec]
      rw [if_neg]
      intro hcb
      refine h 0 (i - pixBase) (by omega) (by omega) ?_
      have h0 : 0 * stride = 0 := by ring
      rw [h0]
      omega
    · intro k j hk hj
      have hrw : pixBase + stride + k * stride + j
          = pixBase + (k + 1) * stride + j := by ring
      rw [hrw]
      exact h (k + 1) j (by omega) hj

theorem rowsLoop_value (pal buf : Nat → Nat) (w stride : Nat)
    (hws : 2 * ((w + 1) / 2) ≤ stride) :
    ∀ (n pixBase bufBase : Nat) (dest : Nat → Nat) (k j : Nat),
      k < n → j < 2 * ((w + 1) / 2) →
      rowsLoop pal buf w stride n pixBase bufBase dest (pixBase + k * stride + j)
        = pal (buf (bufBase + k * w + j)) := by
  intro n
  induction n with
  | zero => intro _ _ _ k j hk _; exact absurd hk (Nat.not_lt_zero k)
  | succ n ih =>
    intro pixBase bufBase dest k j hk hj
    show rowsLoop pal buf w stride n (pixBase + stride) (bufBase + w)
      (rowLoop pal buf dest pixBase bufBase w 0) (pixBase + k * stride + j) = _
    rcases k with _ | k
    · have hidx : pixBase + 0 * stride + j = pixBase + j := by ring
      rw [hidx]
      have hne : ∀ k' j', k' < n → j' < 2 * ((w + 1) / 2) →
          pixBase + j ≠ (pixBase + stride) + k' * stride + j' := by
        intro k' j' _ _
        omega
      rw [rowsLoop_untouched pal buf w stride n (pixBase + stride) (bufBase + w)
        _ _ hne]
      rw [rowLoop_spec, if_pos (by omega)]
      have he : bufBase + (pixBase + j - pixBase) = bufBase + 0 * w + j := by
        have h0 : 0 * w = 0 := by ring
        rw [h0]
        omega
      rw [he]
    · have hidx : pixBase + (k + 1) * stride + j
        = (pixBase + stride) + k * stride + j := by ring
      rw [hidx, ih (pixBase + stride) (bufBase + w) _ k j (by omega) hj]
      have he : bufBase + w + k * w + j = bufBase + (k + 1) * w + j := by ring
      rw [he]

/-- C8 (amended): for an EVEN width `w ≤ stride`, `GFX_CopyBackBuffer`
writes destination pixel `y*stride + x` (for `y < h`, `x < w`) with the
palette entry indexed by source byte `y*w + x`, touches no destination
pixel outside those positions, and reads no source byte outside the
`w`-column, `h`-row region (the result is unchanged under any modification
of the source outside it).  For odd `w` the manually unrolled inner loop
oversteps by one column per row (see the counterexample). -/
theorem copyBackBuffer_spec :
    ∀ (pal buf dest : Nat → Nat) (w h stride : Nat),
      w % 2 = 0 → w ≤ stride →
      (∀ y x, y < h → x < w →
          GFX_CopyBackBuffer pal buf w h stride dest (y * stride + x)
            = pal (buf (y * w + x)))
      ∧ (∀ i, (∀ y x, y < h → x < w → i ≠ y * stride + x) →
          GFX_CopyBackBuffer pal buf w h stride dest i = dest i)
      ∧ (∀ buf' : Nat → Nat,
          (∀ y x, y < h → x < w → buf (y * w + x) = buf' (y * w + x)) →
          ∀ i, GFX_CopyBackBuffer pal buf w h stride dest i
            = GFX_CopyBackBuffer pal buf' w h stride dest i) := by
  intro pal buf dest w h stride hev hws
  have hW : 2 * ((w + 1) / 2) = w := by omega
  have hval : ∀ y x, y < h → x < w →
      GFX_CopyBackBuffer pal buf w h stride dest (y * stride + x)
        = pal (buf (y * w + x)) := by
    intro y x hy hx
    have hidx : y * stride + x = 0 + y * stride + x := by ring
    rw [GFX_CopyBackBuffer, hidx,
      rowsLoop_value pal buf w stride (by omega) h 0 0 dest y x hy (by omega)]
    have he : 0 + y * w + x = y * w + x := by ring
    rw [he]
  have hunt : ∀ i, (∀ y x, y < h → x < w → i ≠ y * stride + x) →
      GFX_CopyBackBuffer pal buf w h stride dest i = dest i := by
    intro i hi
    rw [GFX_CopyBackBuffer, rowsLoop_untouched]
    intro k j hk hj
    have he : 0 + k * stride + j = k * stride + j := by ring
    rw [he]
    exact hi k j hk (by omega)
  refine ⟨hval, hunt, ?_⟩
  · intro buf' hbb i
    have hval' : ∀ y x, y < h → x < w →
        GFX_CopyBackBuffer pal buf' w h stride dest (y * stride + x)
          = pal (buf' (y * w + x)) := by
      intro y x hy hx
      have hidx : y * stride + x = 0 + y * stride + x := by ring
      rw [GFX_CopyBackBuffer, hidx,
        rowsLoop_value pal buf' w stride (by omega) h 0 0 dest y x hy (by omega)]
      have he : 0 + y * w + x = y * w + x := by ring
      rw [he]
    have hunt' : ∀ j, (∀ y x, y < h → x < w → j ≠ y * stride + x) →
        GFX_CopyBackBuffer pal buf' w h stride dest j = dest j := by
      intro j hj
      rw [GFX_CopyBackBuffer, rowsLoop_untouched]
      intro k j' hk hj'
      have he : 0 + k * stride + j' = k * stride + j' := by ring
      rw [he]
      exact hj k j' hk (by omega)
    by_cases hex : ∃ y x, y < h ∧ x < w ∧ i = y * stride + x
    · obtain ⟨y, x, hy, hx, rfl⟩ := hex
      rw [hval y x hy hx, hval' y x hy hx, hbb y x hy hx]
    · push_neg at hex
      rw [hunt i (fun y x hy hx => hex y x hy hx),
        hunt' i (fun y x hy hx => hex y x hy hx)]

/-- Witness for `copyBackBuffer_spec`: a 2×1 even-width copy writes
destination pixel 1 from source byte 1. -/
theorem copyBackBuffer_spec_witness :
    2 % 2 = 0 ∧ 2 ≤ 2
    ∧ GFX_CopyBackBuffer (fun p => p + 1) (fun i => i) 2 1 2 (fun _ => 0)
        (0 * 2 + 1) = (fun p => p + 1) ((fun i : Nat => i) (0 * 2 + 1)) :=
  ⟨rfl, le_refl 2,
    (copyBackBuffer_spec (fun p => p + 1) (fun i => i) (fun _ => 0) 2 1 2 rfl
      (le_refl 2)).1 0 1 (by decide) (by decide)⟩

/-- C8 counterexample: with `w = 1` (odd), `h = 1`, `stride = 2`, identity
palette, source byte function `i + 5` and destination constantly 99, the
copy writes destination pixel 1 — a column outside `x < 1` — with
`pal(buf(1)) = 6`, reading source byte 1, which is outside the 1×1 source
region; the claim requires that pixel to remain 99 untouched. -/
theorem copyBackBuffer_odd_counterexample :
    GFX_CopyBackBuffer (fun p => p) (fun i => i + 5) 1 1 2 (fun _ => 99) 1 = 6 :=
  rfl
